/-
Verification of the QuantMind content-processing core against its
natural-language specification.

The Lean definitions below are shallow embeddings of the Python source:

* `quantmind/llm/block.py`            — LLMBlock retry loop, temporary_config
* `quantmind/config/llm.py`           — LLMConfig.create_variant
* `quantmind/config/flows.py`         — template substitution, flow configs
* `quantmind/config/settings.py`      — env-var substitution, _parse_config
* `quantmind/storage/local_storage.py`— indexed local store
* `quantmind/storage/base.py`         — process_knowledge / paper download
* `quantmind/flow/summary_flow.py`    — SummaryFlow.execute

Python dictionaries keyed by strings are modelled as `String → Option α`
maps (for pure key lookup/update) or association lists (where the code
enumerates directory contents).  HTTP and LLM endpoints are modelled as
oracles passed explicitly; an `Option` result models success/exception.
Machine-level concerns (actual disk I/O, real time) are abstracted into
explicit state records and counters.
-/
import Mathlib

namespace QuantMind

/-! ## LLM configuration (`quantmind/config/llm.py`)

`LLMConfig` is a Pydantic model; floats (`temperature`, `top_p`,
`retry_delay`) are modelled as rationals — no float arithmetic occurs in
the embedded code paths, the values are only copied around. -/

structure LLMConfig where
  model : String := "gpt-4o"
  temperature : ℚ := 0
  max_tokens : Nat := 4000
  top_p : ℚ := 1
  api_key : Option String := none
  base_url : Option String := none
  api_version : Option String := none
  timeout : Nat := 60
  retry_attempts : Nat := 3
  retry_delay : ℚ := 1
  extra_params : List (String × String) := []
  system_prompt : Option String := none
  custom_instructions : Option String := none
deriving DecidableEq

/-- Keyword overrides accepted by `LLMConfig.create_variant(**overrides)`:
each field may or may not be overridden. -/
structure LLMOverrides where
  model : Option String := none
  temperature : Option ℚ := none
  max_tokens : Option Nat := none
  top_p : Option ℚ := none
  api_key : Option (Option String) := none
  base_url : Option (Option String) := none
  api_version : Option (Option String) := none
  timeout : Option Nat := none
  retry_attempts : Option Nat := none
  retry_delay : Option ℚ := none
  extra_params : Option (List (String × String)) := none
  system_prompt : Option (Option String) := none
  custom_instructions : Option (Option String) := none

/-- `LLMConfig.create_variant`: dump the current config to a dict, apply
the overrides, and build a fresh `LLMConfig` — the receiver is untouched. -/
def create_variant (c : LLMConfig) (o : LLMOverrides) : LLMConfig :=
  { model := o.model.getD c.model
    temperature := o.temperature.getD c.temperature
    max_tokens := o.max_tokens.getD c.max_tokens
    top_p := o.top_p.getD c.top_p
    api_key := o.api_key.getD c.api_key
    base_url := o.base_url.getD c.base_url
    api_version := o.api_version.getD c.api_version
    timeout := o.timeout.getD c.timeout
    retry_attempts := o.retry_attempts.getD c.retry_attempts
    retry_delay := o.retry_delay.getD c.retry_delay
    extra_params := o.extra_params.getD c.extra_params
    system_prompt := o.system_prompt.getD c.system_prompt
    custom_instructions := o.custom_instructions.getD c.custom_instructions }

/-! ## LLMBlock retry loop (`quantmind/llm/block.py`, `_call_with_retry`)

The underlying `litellm.completion` call is modelled as an oracle mapping
the attempt number to `some response` (success) or `none` (exception).
The loop `for attempt in range(retry_attempts + 1)` returns the response
on the first success, sleeps `retry_delay` between failed attempts
(`if attempt < retry_attempts`), and returns `None` after exhaustion.
`retryLoop oracle m fuel attempt` runs the remaining iterations starting
at `attempt` with `fuel = m + 1 - attempt` iterations left; it returns
(result, number of sleeps, number of attempts made). -/

def retryLoop (oracle : Nat → Option α) (m : Nat) :
    Nat → Nat → Option α × Nat × Nat
  | 0, _ => (none, 0, 0)
  | fuel + 1, attempt =>
    match oracle attempt with
    | some v => (some v, 0, 1)
    | none =>
      if attempt < m then
        let r := retryLoop oracle m fuel (attempt + 1)
        (r.1, r.2.1 + 1, r.2.2 + 1)
      else
        (none, 0, 1)

/-- `LLMBlock._call_with_retry` with `retry_attempts = m`:
returns (result, sleep count, attempt count). -/
def call_with_retry (oracle : Nat → Option α) (m : Nat) : Option α × Nat × Nat :=
  retryLoop oracle m (m + 1) 0

/-- A completion endpoint that raises on the first `n` attempts and then
succeeds with `v` (the mock of the spec's retry scenario). -/
def failThenSucceed (n : Nat) (v : α) : Nat → Option α :=
  fun attempt => if attempt < n then none else some v

/-! ## LLMBlock state (`quantmind/llm/block.py`)

The block's only configuration state is `self.config`; `_setup_litellm`
mutates process-global litellm settings and environment variables, which
are outside the configuration state the claims are about. -/

structure LLMBlock where
  config : LLMConfig

/-- `LLMBlock.update_config(**kwargs)`: `self.config = self.config.create_variant(**kwargs)`. -/
def update_config (b : LLMBlock) (o : LLMOverrides) : LLMBlock :=
  { b with config := create_variant b.config o }

/-- `LLMBlock.temporary_config(**kwargs)` as a context manager: copy the
current config, apply `update_config`, run the body, and restore the
saved config in a `finally` block.  The body receives the modified block
and returns either `Except.ok` (normal exit) or `Except.error`
(exception raised inside the scope), together with the block state it
left behind; the `finally` restoration applies to both. -/
def temporary_config (b : LLMBlock) (o : LLMOverrides)
    (body : LLMBlock → Except ε α × LLMBlock) : Except ε α × LLMBlock :=
  let originalConfig := b.config
  let r := body (update_config b o)
  (r.1, { r.2 with config := originalConfig })

/-! ## Template substitution (`quantmind/config/flows.py`,
`BaseFlowConfig.substitute_template`)

`re.sub(r"\{\{([^}]+)\}\}", replace_var, template)`: scan left to
right; at each position try to match two opening braces, one or more
non-closing-brace characters, then two closing braces; replace a match
with the variable value (`str(variables[name])`) or the literal
`[name: not available]` placeholder; on no match emit the character and
move one position right.  Characters are processed with explicit fuel
(initialised to the string length) so the functions are structurally
recursive and kernel-computable. -/

def openBr : Char := Char.ofNat 123

def closeBr : Char := Char.ofNat 125

/-- Match of the regex fragment `([^}]+)\}\}` at the start of `l`:
returns the captured name and the remainder after the two closing
braces. -/
def scanTemplateVar (l : List Char) : Option (List Char × List Char) :=
  match l.dropWhile (fun c => c ≠ closeBr) with
  | c1 :: c2 :: rest =>
    if (l.takeWhile (fun c => c ≠ closeBr)).isEmpty then none
    else if c1 = closeBr ∧ c2 = closeBr then
      some (l.takeWhile (fun c => c ≠ closeBr), rest)
    else none
  | _ => none

/-- Match of the full `\{\{([^}]+)\}\}` pattern at the start of `l`. -/
def tryMatchVar : List Char → Option (List Char × List Char)
  | c1 :: c2 :: rest =>
    if c1 = openBr ∧ c2 = openBr then scanTemplateVar rest else none
  | _ => none

/-- `replace_var`: the substituted text for a captured variable name. -/
def replaceVar (vars : List (String × String)) (name : List Char) : List Char :=
  match List.lookup (String.mk name) vars with
  | some v => v.data
  | none => ("[" ++ String.mk name ++ ": not available]").data

def substVarsGo (vars : List (String × String)) : Nat → List Char → List Char
  | 0, l => l
  | _ + 1, [] => []
  | fuel + 1, c :: cs =>
    (tryMatchVar (c :: cs)).elim
      (c :: substVarsGo vars fuel cs)
      (fun pr => replaceVar vars pr.1 ++ substVarsGo vars fuel pr.2)

/-- `BaseFlowConfig.substitute_template(template, variables)`. -/
def substitute_template (template : String) (vars : List (String × String)) : String :=
  String.mk (substVarsGo vars template.data.length template.data)

/-! ## Environment-variable substitution (`quantmind/config/settings.py`,
`Setting.substitute_env_vars`)

`re.sub(r"\$\{([^}:]+)(?::([^}]*))?\}", replacer, value)` on string
values; the replacer returns `os.getenv(var, default)` where the default
is the second capture group or the empty string when the group is
absent.  The environment is modelled as an oracle
`env : String → Option String`. -/

/-- Match of `([^}:]+)(?::([^}]*))?\}` at the start of `l`: returns the
variable name, the default (empty when no `:default` part is present),
and the remainder after the closing brace. -/
def scanEnvRef (l : List Char) : Option (List Char × List Char × List Char) :=
  match l.dropWhile (fun c => c ≠ closeBr ∧ c ≠ ':') with
  | c1 :: rest1 =>
    if (l.takeWhile (fun c => c ≠ closeBr ∧ c ≠ ':')).isEmpty then none
    else if c1 = closeBr then
      some (l.takeWhile (fun c => c ≠ closeBr ∧ c ≠ ':'), [], rest1)
    else if c1 = ':' then
      match rest1.dropWhile (fun c => c ≠ closeBr) with
      | c2 :: rest2 =>
        if c2 = closeBr then
          some (l.takeWhile (fun c => c ≠ closeBr ∧ c ≠ ':'),
                rest1.takeWhile (fun c => c ≠ closeBr), rest2)
        else none
      | [] => none
    else none
  | [] => none

/-- Match of the full `\$\{([^}:]+)(?::([^}]*))?\}` pattern at the start
of `l`. -/
def tryMatchEnv : List Char → Option (List Char × List Char × List Char)
  | c1 :: c2 :: rest =>
    if c1 = Char.ofNat 36 ∧ c2 = openBr then scanEnvRef rest else none
  | _ => none

/-- The replacer: `os.getenv(env_var, default_val)`. -/
def replaceEnvRef (env : String → Option String) (name dflt : List Char) : List Char :=
  match env (String.mk name) with
  | some v => v.data
  | none => dflt

def substEnvGo (env : String → Option String) : Nat → List Char → List Char
  | 0, l => l
  | _ + 1, [] => []
  | fuel + 1, c :: cs =>
    (tryMatchEnv (c :: cs)).elim
      (c :: substEnvGo env fuel cs)
      (fun pr => replaceEnvRef env pr.1 pr.2.1 ++ substEnvGo env fuel pr.2.2)

/-- `Setting.substitute_env_vars` restricted to a single string value
(the recursion over nested dicts and lists applies this function to
every string leaf). -/
def substitute_env_vars (env : String → Option String) (value : String) : String :=
  String.mk (substEnvGo env value.data.length value.data)

/-! ## Content model

`quantmind/models/content.py` and `quantmind/models/paper.py` are not
present in the source tree — only their callers (storage, flows) and
tests are.  The base entity, the `Paper` subtype and the JSON
round-trip are therefore modelled from the spec (sections 3 and 4.5):
a polymorphic `KnowledgeItem` with base attributes, a `Paper` subtype
(arxiv_id, pdf_url, published_date, primary_category), a
`content_type` discriminator, and serialization that round-trips every
subtype field.  The `SearchContent` subtype is present in the tree
(`quantmind/models/search.py`) and its extension fields are embedded
from that source. -/

/-- Modelled from the spec: `Paper` extension fields
(`quantmind/models/paper.py` is missing from the tree). -/
structure PaperFields where
  arxiv_id : Option String := none
  pdf_url : Option String := none
  published_date : Option String := none
  primary_category : Option String := none
deriving DecidableEq

/-- `SearchContent` extension fields, embedded from
`quantmind/models/search.py`: `url` and `snippet` are required strings
and `query` is `Optional[str] = None`; `title`, `source` and
`meta_info` are base-entity fields carried on `KnowledgeItem` below,
and `get_primary_id()` returns `url`. -/
structure SearchFields where
  url : String
  snippet : String
  query : Option String := none
deriving DecidableEq

/-- Modelled from the spec: the polymorphic part of a knowledge item —
either the generic base class (carrying its `content_type` string) or
one of the subtypes. -/
inductive KnowledgeBody
  | generic (content_type : String)
  | paper (p : PaperFields)
  | search (s : SearchFields)
deriving DecidableEq

/-- Modelled from the spec: the central `KnowledgeItem` entity with its
base attributes; timestamps are omitted (no claim touches them) and
`meta_info` is an open string-keyed mapping. -/
structure KnowledgeItem where
  title : String := ""
  abstract : String := ""
  content : String := ""
  source : String := ""
  authors : List String := []
  categories : List String := []
  tags : List String := []
  meta_info : List (String × String) := []
  body : KnowledgeBody := KnowledgeBody.generic "generic"
deriving DecidableEq

/-- Modelled from the spec: the default primary ID is a stable hash of
source+title; any injective deterministic function serves the claims. -/
def stableHash (source title : String) : String :=
  "hash-" ++ source ++ "-" ++ title

/-- Modelled from the spec: `get_primary_id()` — `arxiv_id` for papers
(when present), `url` for search content, else the stable hash. -/
def get_primary_id (k : KnowledgeItem) : String :=
  match k.body with
  | KnowledgeBody.paper p => p.arxiv_id.getD (stableHash k.source k.title)
  | KnowledgeBody.search s => s.url
  | KnowledgeBody.generic _ => stableHash k.source k.title

/-- `content_type` attribute of an item (the discriminator stored in the
serialized JSON). -/
def contentTypeOf : KnowledgeBody → String
  | KnowledgeBody.generic ct => ct
  | KnowledgeBody.paper _ => "paper"
  | KnowledgeBody.search _ => "search"

/-- The parsed JSON document produced by `knowledge.model_dump()` and
stored under `knowledges/{id}.json`. -/
structure KnowledgeDump where
  title : String
  abstract : String
  content : String
  source : String
  authors : List String
  categories : List String
  tags : List String
  meta_info : List (String × String)
  content_type : String
  paperF : Option PaperFields
  searchF : Option SearchFields
deriving DecidableEq

/-- Modelled from the spec: serialization (`model_dump` + `json.dump`) of
a knowledge item, all subtype-specific fields included. -/
def modelDump (k : KnowledgeItem) : KnowledgeDump :=
  { title := k.title
    abstract := k.abstract
    content := k.content
    source := k.source
    authors := k.authors
    categories := k.categories
    tags := k.tags
    meta_info := k.meta_info
    content_type := contentTypeOf k.body
    paperF := match k.body with
      | KnowledgeBody.paper p => some p
      | _ => none
    searchF := match k.body with
      | KnowledgeBody.search s => some s
      | _ => none }

/-- Modelled from the spec: deserialization (`KnowledgeItem(**data)`)
dispatches on the stored `content_type` discriminator into the
polymorphic subtype; a document whose subtype payload is absent falls
back to the generic base class. -/
def deserializeKnowledge (d : KnowledgeDump) : KnowledgeItem :=
  { title := d.title
    abstract := d.abstract
    content := d.content
    source := d.source
    authors := d.authors
    categories := d.categories
    tags := d.tags
    meta_info := d.meta_info
    body :=
      if d.content_type = "paper" then
        match d.paperF with
        | some p => KnowledgeBody.paper p
        | none => KnowledgeBody.generic d.content_type
      else if d.content_type = "search" then
        match d.searchF with
        | some s => KnowledgeBody.search s
        | none => KnowledgeBody.generic d.content_type
      else KnowledgeBody.generic d.content_type }

/-! ## Knowledge storage (`quantmind/storage/local_storage.py`)

The knowledges directory and its index.  `files` maps a relative path
(e.g. `knowledges/{id}.json`) to the parsed JSON document on disk;
`index` is the in-memory `_knowledges_index` mapping a knowledge ID to
its relative path (the on-disk `knowledges_index.json` is written
through on every mutation and is not modelled separately).  Disk writes
are assumed to succeed — the failure path re-raises and stores
nothing. -/

structure KnowStore where
  files : String → Option KnowledgeDump
  index : String → Option String

def knowledgePath (kid : String) : String := "knowledges/" ++ kid ++ ".json"

/-- `LocalStorage.store_knowledge`: write `knowledges/{primary_id}.json`,
update the index (write-through), return the primary ID. -/
def store_knowledge (s : KnowStore) (k : KnowledgeItem) : KnowStore × String :=
  let kid := get_primary_id k
  let path := knowledgePath kid
  ({ files := fun p => if p = path then some (modelDump k) else s.files p
     index := fun i => if i = kid then some path else s.index i },
   kid)

/-- `LocalStorage.get_knowledge`: index lookup first; if the indexed file
is missing on disk, prune the stale entry and return `None`
(self-heal); if the ID is not indexed, fall back to a direct check of
`knowledges/{id}.json` and backfill the index on a hit. -/
def get_knowledge (s : KnowStore) (kid : String) : KnowStore × Option KnowledgeItem :=
  match s.index kid with
  | some rel =>
    match s.files rel with
    | some d => (s, some (deserializeKnowledge d))
    | none =>
      ({ s with index := fun i => if i = kid then none else s.index i }, none)
  | none =>
    match s.files (knowledgePath kid) with
    | some d =>
      ({ s with index := fun i => if i = kid then some (knowledgePath kid) else s.index i },
       some (deserializeKnowledge d))
    | none => (s, none)

/-! ## Raw-file storage (`quantmind/storage/local_storage.py`)

The raw_files directory is an association list from relative path
(`raw_files/{file_id}{ext}`) to file bytes — a list, because
`get_raw_file`'s fallback scans the directory (`glob(f"{file_id}.*")`).
`index` is the in-memory `_raw_files_index` mapping a file ID to
`{"path": ..., "extension": ...}`. -/

structure RawStore where
  dirFiles : List (String × List Nat)
  index : String → Option (String × String)

def rawPath (fileId ext : String) : String := "raw_files/" ++ fileId ++ ext

/-- `Path.suffix` of a relative path: the extension from the last dot of
the final component (empty for dotless or dot-leading names). -/
def suffixOfPath (p : String) : String :=
  let base := p.data.reverse.takeWhile (fun c => c ≠ Char.ofNat 47)
  let pre := base.takeWhile (fun c => c ≠ Char.ofNat 46)
  if pre.length = base.length then ""
  else if pre.length + 1 = base.length then ""
  else String.mk (Char.ofNat 46 :: pre.reverse)

/-- `file_extension.startswith(".")`: whether the first character is a
dot. -/
def startsWithDot (s : String) : Bool :=
  match s.data with
  | c :: _ => c = Char.ofNat 46
  | [] => false

/-- Extension defaulting in `store_raw_file`'s direct-content branch:
empty extension becomes `.bin`, and a missing leading dot is added. -/
def normalizeExt (e : String) : String :=
  let e1 := if e = "" then ".bin" else e
  if startsWithDot e1 then e1 else "." ++ e1

/-- `LocalStorage.store_raw_file` with `content=` (the direct-write
branch; the copy-from-`file_path` branch reads an external source tree
and is exercised by no claim).  Writes `raw_files/{file_id}{ext}`,
updates the index write-through, and returns the stored path (the
constant storage-root prefix is elided from the absolute path). -/
def store_raw_file (s : RawStore) (fileId : String) (content : List Nat)
    (fileExtension : String) : RawStore × String :=
  let ext := normalizeExt fileExtension
  let path := rawPath fileId ext
  ({ dirFiles := (path, content) :: s.dirFiles.filter (fun e => decide (e.1 ≠ path))
     index := fun i => if i = fileId then some (path, ext) else s.index i },
   path)

/-- `LocalStorage.get_raw_file`: index lookup; a stale entry (file gone
from disk) is pruned and `None` returned; an unindexed ID falls back to
a directory scan for `{file_id}.*`, backfilling the index on a hit. -/
def get_raw_file (s : RawStore) (fileId : String) : RawStore × Option String :=
  match s.index fileId with
  | some e =>
    if (s.dirFiles.lookup e.1).isSome then (s, some e.1)
    else
      ({ s with index := fun i => if i = fileId then none else s.index i }, none)
  | none =>
    match s.dirFiles.find? (fun e => ("raw_files/" ++ fileId ++ ".").isPrefixOf e.1) with
    | some e =>
      ({ s with index := fun i =>
          if i = fileId then some (e.1, suffixOfPath e.1) else s.index i },
       some e.1)
    | none => (s, none)

/-! ## Paper processing (`quantmind/storage/base.py`) -/

/-- One HTTP GET as issued by `_download_file_content`. -/
structure HttpEvent where
  url : String
  timeout : Nat
deriving DecidableEq

/-- `BaseStorageConfig` (`quantmind/config/storage.py`): the storage
directory and the documented download timeout knob. -/
structure BaseStorageConfig where
  storage_dir : String := "./data"
  download_timeout : Nat := 30
deriving DecidableEq

/-- `BaseStorage._download_file_content`: `requests.get(url, timeout=30)`
with the timeout hardcoded to 30 — the method never reads
`self.config.download_timeout` (the config is in scope but unused,
hence the underscore binder).  Any exception, including
`raise_for_status`, yields `None`.  Returns the result together with
the list of HTTP GETs issued. -/
def download_file_content (_cfg : BaseStorageConfig)
    (http : String → Nat → Option (List Nat)) (url : String) :
    Option (List Nat) × List HttpEvent :=
  (http url 30, [⟨url, 30⟩])

/-- `BaseStorage._handle_paper_files`: skip when a raw file for the
paper's ID already exists; otherwise, when `pdf_url` is set, download
once and store the bytes as `{paper_id}.pdf` (the `if content:` guard
skips empty bytes); any failure is logged and swallowed. -/
def handle_paper_files (cfg : BaseStorageConfig)
    (http : String → Nat → Option (List Nat)) (s : RawStore)
    (k : KnowledgeItem) (p : PaperFields) : RawStore × List HttpEvent :=
  match (get_raw_file s (get_primary_id k)).2 with
  | some _ => ((get_raw_file s (get_primary_id k)).1, [])
  | none =>
    match p.pdf_url with
    | none => ((get_raw_file s (get_primary_id k)).1, [])
    | some url =>
      match (download_file_content cfg http url).1 with
      | some content =>
        if content = [] then
          ((get_raw_file s (get_primary_id k)).1, (download_file_content cfg http url).2)
        else
          ((store_raw_file (get_raw_file s (get_primary_id k)).1
              (get_primary_id k) content ".pdf").1,
           (download_file_content cfg http url).2)
      | none =>
        ((get_raw_file s (get_primary_id k)).1, (download_file_content cfg http url).2)

/-- The full local storage state: knowledges and raw files (embeddings
and extras are exercised by no claim). -/
structure Storage where
  know : KnowStore
  raw : RawStore

/-- `BaseStorage.process_knowledge`: store the knowledge item first,
then dispatch by subtype — `Paper` gets `_handle_paper_files`.  Returns
the new state, the stored ID and the HTTP GETs issued. -/
def process_knowledge (cfg : BaseStorageConfig)
    (http : String → Nat → Option (List Nat)) (s : Storage)
    (k : KnowledgeItem) : Storage × String × List HttpEvent :=
  match k.body with
  | KnowledgeBody.paper p =>
    ({ know := (store_knowledge s.know k).1,
       raw := (handle_paper_files cfg http s.raw k p).1 },
     (store_knowledge s.know k).2,
     (handle_paper_files cfg http s.raw k p).2)
  | _ => ({ s with know := (store_knowledge s.know k).1 }, (store_knowledge s.know k).2, [])

/-! ## Summary flow (`quantmind/flow/summary_flow.py`,
`quantmind/flow/base.py`, `quantmind/config/flows.py`)

`SummaryFlow.execute(knowledge_item)` builds a prompt from the template
system, calls the LLM once via `_call_llm` (the block's `generate_text`,
modelled as an oracle `String → Option String`), and either returns an
error-result dictionary (`_create_error_result("Failed to generate
summary")`) when the response is `None`, or parses the response by
`output_format` into a summary dictionary.  The parsers
(`_parse_structured_response` etc., summary_flow.py 56-88 onward) only
reshape the response text into a dictionary and issue no further LLM
calls; `SummaryOutcome.parsed` records the response and the selected
`output_format` without embedding them.  The model assumes the LLM
block initialized (otherwise `_call_llm` short-circuits to `None`). -/

/-- Python truthiness for optional strings: `None` and `""` are falsy
(`a or b` skips both). -/
def truthyStr : Option String → Option String
  | some s => if s = "" then none else some s
  | none => none

/-- `SummaryFlowConfig.get_default_system_prompt()`. -/
def summaryDefaultSystemPrompt : String :=
  "You are a financial research summarization expert. Create clear, comprehensive " ++
  "summaries that capture the essence of quantitative finance research papers. " ++
  "Focus on practical insights, methodological contributions, and actionable findings."

/-- `SummaryFlowConfig.get_default_prompt_template()`. -/
def summaryDefaultTemplate : String :=
  "\x7b\x7bsystem_prompt\x7d\x7d\n\n" ++
  "Create a \x7b\x7bsummary_type\x7d\x7d summary (max \x7b\x7bmax_summary_length\x7d\x7d words) for:\n\n" ++
  "Title: \x7b\x7btitle\x7d\x7d\n" ++
  "Abstract: \x7b\x7babstract\x7d\x7d\n" ++
  "Content: \x7b\x7bcontent\x7d\x7d\n\n" ++
  "Include: Key findings=\x7b\x7binclude_key_findings\x7d\x7d, " ++
  "Methodology=\x7b\x7binclude_methodology\x7d\x7d, Results=\x7b\x7binclude_results\x7d\x7d, " ++
  "Implications=\x7b\x7binclude_implications\x7d\x7d\n\n" ++
  "Format: \x7b\x7boutput_format\x7d\x7d\n\n" ++
  "\x7b\x7bcustom_instructions\x7d\x7d"

/-- `SummaryFlowConfig` — the fields `execute`/`build_prompt` read. -/
structure SummaryFlowConfig where
  llm_config : LLMConfig := {}
  system_prompt : Option String := none
  prompt_template : Option String := none
  template_variables : List (String × String) := []
  custom_build_prompt : Option (KnowledgeItem → String) := none
  summary_type : String := "comprehensive"
  max_summary_length : Nat := 800
  output_format : String := "structured"

/-- `BaseFlowConfig.get_system_prompt`: LLM config's system prompt, then
the flow-level one, then the class default (empty strings are falsy). -/
def get_system_prompt (cfg : SummaryFlowConfig) : String :=
  match truthyStr cfg.llm_config.system_prompt with
  | some s => s
  | none =>
    match truthyStr cfg.system_prompt with
    | some s => s
    | none => summaryDefaultSystemPrompt

def joinComma (xs : List String) : String := String.intercalate ", " xs

/-- `BaseFlowConfig.extract_template_variables`: the variable dictionary
for substitution.  Python dict writes are last-wins (meta_info entries,
then runtime kwargs, then config template_variables, then the core item
fields and system components); `List.lookup` takes the first hit, so
the list is built in reverse priority order. -/
def extract_template_variables (cfg : SummaryFlowConfig) (k : KnowledgeItem)
    (kwargs : List (String × String)) : List (String × String) :=
  (k.meta_info.map (fun e => ("meta_info." ++ e.1, e.2)))
    ++ kwargs
    ++ cfg.template_variables
    ++ [("title", k.title), ("abstract", k.abstract), ("content", k.content),
        ("authors", joinComma k.authors), ("categories", joinComma k.categories),
        ("tags", joinComma k.tags), ("source", k.source),
        ("content_type", contentTypeOf k.body),
        ("system_prompt", get_system_prompt cfg),
        ("custom_instructions", cfg.llm_config.custom_instructions.getD "")]

/-- `BaseFlow.build_prompt`: use `custom_build_prompt` when provided,
else render `prompt_template` (default template when unset or empty)
with the extracted variables.  There is no check of `content` anywhere:
an empty content simply renders as the empty string. -/
def build_prompt (cfg : SummaryFlowConfig) (k : KnowledgeItem)
    (kwargs : List (String × String)) : String :=
  match cfg.custom_build_prompt with
  | some f => f k
  | none =>
    substitute_template ((truthyStr cfg.prompt_template).getD summaryDefaultTemplate)
      (extract_template_variables cfg k kwargs)

/-- The result of `SummaryFlow.execute`: always a dictionary — either
the `_create_error_result` shape or a parsed-summary shape (with the
raw response and the `output_format` that picks the parser). -/
inductive SummaryOutcome
  | errorResult (msg : String)
  | parsed (response : String) (output_format : String)
deriving DecidableEq

/-- `SummaryFlow.execute`: build the prompt, make one LLM call, and
dispatch on the response.  Returns the outcome and the number of LLM
calls made. -/
def summary_execute (cfg : SummaryFlowConfig) (llm : String → Option String)
    (k : KnowledgeItem) : SummaryOutcome × Nat :=
  match llm (build_prompt cfg k []) with
  | none => (SummaryOutcome.errorResult "Failed to generate summary", 1)
  | some response => (SummaryOutcome.parsed response cfg.output_format, 1)

/-! ## Setting._parse_config (`quantmind/config/settings.py`)

The component-dispatch step of `Setting.from_yaml`: each of the four
component sections (`source`, `parser`, `tagger`, `storage`) is looked
up in the built-in `CONFIG_REGISTRY`; a known type constructs the
registered config class, an unknown type logs
`Unknown {component} type: {type}` and the section is skipped.  The
parsed component is modelled by the registry key that selected its
config class; the config payload itself is opaque to the dispatch. -/

inductive ComponentKind
  | source
  | parserKind
  | tagger
  | storage
deriving DecidableEq

def kindName : ComponentKind → String
  | ComponentKind.source => "source"
  | ComponentKind.parserKind => "parser"
  | ComponentKind.tagger => "tagger"
  | ComponentKind.storage => "storage"

/-- The built-in `CONFIG_REGISTRY` keys per component. -/
def registryTypes : ComponentKind → List String
  | ComponentKind.source => ["arxiv", "news", "web"]
  | ComponentKind.parserKind => ["pdf", "llama"]
  | ComponentKind.tagger => ["llm"]
  | ComponentKind.storage => ["local"]

/-- One component section of the YAML dict: its `type` value (absent
`type` prints as `None` in the warning). -/
structure ComponentSection where
  typeName : Option String := none
deriving DecidableEq

/-- The component sections of the configuration dictionary. -/
structure ConfigDict where
  source : Option ComponentSection := none
  parser : Option ComponentSection := none
  tagger : Option ComponentSection := none
  storage : Option ComponentSection := none
deriving DecidableEq

/-- The component fields of the resulting `Setting` (each recorded as
the registry key whose config class was constructed; `none` = section
absent or skipped, leaving the pydantic field default). -/
structure SettingModel where
  source : Option String := none
  parser : Option String := none
  tagger : Option String := none
  storage : Option String := none
deriving DecidableEq

/-- Dispatch of one component section: a registered type is parsed, an
unknown (or absent) type yields a `logger.warning` and is skipped — no
exception. -/
def parseComponent (kind : ComponentKind) (sec : Option ComponentSection) :
    Option String × List String :=
  match sec with
  | none => (none, [])
  | some s =>
    match s.typeName with
    | some t =>
      if t ∈ registryTypes kind then (some t, [])
      else (none, ["Unknown " ++ kindName kind ++ " type: " ++ t])
    | none => (none, ["Unknown " ++ kindName kind ++ " type: None"])

/-- `Setting._parse_config` restricted to the four component sections
(the flows/llm/log_level steps issue no unknown-component failures
either — an unknown flow type is likewise warned and skipped).  Returns
the constructed Setting fields and the warnings logged; the function is
total — no code path raises for an unknown component type. -/
def parse_config (d : ConfigDict) : SettingModel × List String :=
  ({ source := (parseComponent ComponentKind.source d.source).1
     parser := (parseComponent ComponentKind.parserKind d.parser).1
     tagger := (parseComponent ComponentKind.tagger d.tagger).1
     storage := (parseComponent ComponentKind.storage d.storage).1 },
   (parseComponent ComponentKind.source d.source).2
     ++ (parseComponent ComponentKind.parserKind d.parser).2
     ++ (parseComponent ComponentKind.tagger d.tagger).2
     ++ (parseComponent ComponentKind.storage d.storage).2)

/-- Projection of a `ConfigDict` section by kind. -/
def sectionOf (d : ConfigDict) : ComponentKind → Option ComponentSection
  | ComponentKind.source => d.source
  | ComponentKind.parserKind => d.parser
  | ComponentKind.tagger => d.tagger
  | ComponentKind.storage => d.storage

/-- Projection of a `SettingModel` field by kind. -/
def fieldOf (s : SettingModel) : ComponentKind → Option String
  | ComponentKind.source => s.source
  | ComponentKind.parserKind => s.parser
  | ComponentKind.tagger => s.tagger
  | ComponentKind.storage => s.storage

lemma retryLoop_failThenSucceed (n m : Nat) (v : α) :
    ∀ fuel attempt, attempt + fuel = m + 1 → attempt ≤ m →
      retryLoop (failThenSucceed n v) m fuel attempt =
        if n ≤ m then
          (some v, n - attempt, n - attempt + 1)
        else
          (none, m - attempt, m - attempt + 1) := by
  intro fuel
  induction fuel with
  | zero => intro attempt h ha; omega
  | succ k ih =>
    intro attempt h ha
    simp only [retryLoop, failThenSucceed]
    by_cases hlt : attempt < n
    · simp only [if_pos hlt]
      by_cases ham : attempt < m
      · simp only [if_pos ham]
        rw [ih (attempt + 1) (by omega) (by omega)]
        by_cases hnm : n ≤ m
        · have h1 : n - (attempt + 1) + 1 = n - attempt := by omega
          have h2 : n - (attempt + 1) + 1 + 1 = n - attempt + 1 := by omega
          simp [hnm, h1, h2]
        · have h1 : m - (attempt + 1) + 1 = m - attempt := by omega
          have h2 : m - (attempt + 1) + 1 + 1 = m - attempt + 1 := by omega
          simp [hnm, h1, h2]
      · simp only [if_neg ham]
        have hnm : ¬ n ≤ m := by omega
        have h1 : m - attempt = 0 := by omega
        simp [hnm, h1]
    · simp only [if_neg hlt]
      have hnm : n ≤ m := by omega
      have h1 : n - attempt = 0 := by omega
      simp [hnm, h1]

/-- Claim C4: with `retry_attempts = M` and a completion endpoint that
fails `N` times and then succeeds, `_call_with_retry` makes at most
`M + 1` attempts, succeeds if and only if `N ≤ M`, sleeps `retry_delay`
exactly `min N M` times, and returns `None` after exhausting all
attempts. -/
theorem call_with_retry_spec (n m : Nat) (v : α) :
    (call_with_retry (failThenSucceed n v) m).2.2 ≤ m + 1 ∧
    ((call_with_retry (failThenSucceed n v) m).1 = some v ↔ n ≤ m) ∧
    (call_with_retry (failThenSucceed n v) m).2.1 = min n m ∧
    (m < n → (call_with_retry (failThenSucceed n v) m).1 = none) := by
  have h := retryLoop_failThenSucceed n m v (m + 1) 0 (by omega) (by omega)
  unfold call_with_retry
  rw [h]
  by_cases hnm : n ≤ m
  · simp only [if_pos hnm]
    refine ⟨by omega, ?_, by omega, ?_⟩
    · simpa using hnm
    · intro hc
      exact absurd hnm (by omega)
  · simp only [if_neg hnm]
    refine ⟨by omega, ?_, by omega, ?_⟩
    · simpa using hnm
    · intro _
      trivial

/-- Claim C8: after a `temporary_config` scope exits — whether the body
ends normally (`Except.ok`) or with an exception (`Except.error`) — the
block's config equals the config it had before entering the scope; the
`create_variant` call used inside builds a fresh config from the input
overrides with the pre-scope config untouched (the restored value is the
pre-scope `b.config` itself). -/
theorem temporary_config_restores {ε α : Type} (b : LLMBlock)
    (o : LLMOverrides) (body : LLMBlock → Except ε α × LLMBlock) :
    (temporary_config b o body).2.config = b.config := by
  rfl

/-! ### Scanner lemmas shared by the template and env substitution proofs -/

lemma takeWhile_append_stop {α : Type} {p : α → Bool} :
    ∀ (l1 : List α) (b : α) (l2 : List α), (∀ c ∈ l1, p c = true) → p b = false →
      (l1 ++ b :: l2).takeWhile p = l1 ∧ (l1 ++ b :: l2).dropWhile p = b :: l2 := by
  intro l1
  induction l1 with
  | nil =>
    intro b l2 _ hb
    simp [List.takeWhile, List.dropWhile, hb]
  | cons a t ih =>
    intro b l2 hall hb
    have ha : p a = true := hall a (by simp)
    have ht : ∀ c ∈ t, p c = true := fun c hc => hall c (by simp [hc])
    have := ih b l2 ht hb
    simp [List.takeWhile, List.dropWhile, ha, this.1, this.2]

lemma length_takeWhile_add_dropWhile {α : Type} (p : α → Bool) (l : List α) :
    (l.takeWhile p).length + (l.dropWhile p).length = l.length := by
  rw [← List.length_append, List.takeWhile_append_dropWhile]

lemma scanTemplateVar_sound {l name rest : List Char}
    (h : scanTemplateVar l = some (name, rest)) :
    l = name ++ closeBr :: closeBr :: rest ∧ name ≠ [] := by
  unfold scanTemplateVar at h
  split at h
  next c1 c2 rest2 hd =>
    split_ifs at h with he hc
    rw [Option.some_inj] at h
    injection h with h1 h2
    subst h1
    subst h2
    constructor
    · conv_lhs => rw [← List.takeWhile_append_dropWhile
        (fun c => decide (c ≠ closeBr)) l]
      rw [hd, hc.1, hc.2]
    · intro hn
      exact he (by rw [hn]; rfl)
  next hd => exact absurd h (by simp)

lemma scanTemplateVar_complete {name : List Char} (suf : List Char)
    (hne : name ≠ []) (hnc : ∀ c ∈ name, c ≠ closeBr) :
    scanTemplateVar (name ++ closeBr :: closeBr :: suf) = some (name, suf) := by
  have hall : ∀ c ∈ name, (fun c => decide (c ≠ closeBr)) c = true := by
    intro c hc
    simp [hnc c hc]
  have hstop : (fun c => decide (c ≠ closeBr)) closeBr = false := by simp
  have h := takeWhile_append_stop name closeBr (closeBr :: suf) hall hstop
  unfold scanTemplateVar
  rw [h.2, h.1]
  simp [hne]

lemma tryMatchVar_sound {l name rest : List Char}
    (h : tryMatchVar l = some (name, rest)) :
    l = openBr :: openBr :: (name ++ closeBr :: closeBr :: rest) ∧ name ≠ [] := by
  cases l with
  | nil => exact absurd h (by simp [tryMatchVar])
  | cons c1 t1 =>
    cases t1 with
    | nil => exact absurd h (by simp [tryMatchVar])
    | cons c2 rest2 =>
      simp only [tryMatchVar] at h
      split_ifs at h with hc
      · have := scanTemplateVar_sound h
        rw [hc.1, hc.2, ← this.1]
        exact ⟨rfl, this.2⟩

lemma tryMatchVar_length {l name rest : List Char}
    (h : tryMatchVar l = some (name, rest)) : rest.length + 5 ≤ l.length := by
  obtain ⟨hl, hne⟩ := tryMatchVar_sound h
  have h1 : 1 ≤ name.length := by
    cases name with
    | nil => exact absurd rfl hne
    | cons _ _ => simp
  rw [hl]
  simp only [List.length_cons, List.length_append]
  omega

lemma tryMatchVar_none_of_head {c : Char} (cs : List Char) (h : c ≠ openBr) :
    tryMatchVar (c :: cs) = none := by
  cases cs with
  | nil => rfl
  | cons c2 t => simp [tryMatchVar, h]

lemma substVarsGo_nil (vars : List (String × String)) :
    ∀ f, substVarsGo vars f [] = [] := by
  intro f
  cases f <;> rfl

lemma substVarsGo_congrFuel (vars : List (String × String)) :
    ∀ f g l, l.length ≤ f → l.length ≤ g →
      substVarsGo vars f l = substVarsGo vars g l := by
  intro f
  induction f with
  | zero =>
    intro g l hf _
    have hl : l = [] := by
      cases l with
      | nil => rfl
      | cons _ _ => simp at hf
    rw [hl, substVarsGo_nil, substVarsGo_nil]
  | succ f ih =>
    intro g l hf hg
    cases l with
    | nil => rw [substVarsGo_nil, substVarsGo_nil]
    | cons c cs =>
      cases g with
      | zero => simp at hg
      | succ g =>
        simp only [substVarsGo]
        cases htm : tryMatchVar (c :: cs) with
        | none =>
          simp only [htm, Option.elim_none, List.length_cons] at hf hg ⊢
          rw [ih g cs (by omega) (by omega)]
        | some pr =>
          obtain ⟨name, rest⟩ := pr
          have hlen := tryMatchVar_length htm
          simp only [htm, Option.elim_some, List.length_cons] at hf hg hlen ⊢
          rw [ih g rest (by omega) (by omega)]

lemma substVarsGo_append_pass (vars : List (String × String)) :
    ∀ (pre : List Char) (l : List Char) (f : Nat),
      (∀ c ∈ pre, c ≠ openBr) → (pre ++ l).length ≤ f →
      substVarsGo vars f (pre ++ l) = pre ++ substVarsGo vars l.length l := by
  intro pre
  induction pre with
  | nil =>
    intro l f _ hf
    simp only [List.nil_append] at hf ⊢
    exact substVarsGo_congrFuel vars f l.length l hf le_rfl
  | cons c t ih =>
    intro l f hall hf
    simp only [List.cons_append, List.length_cons, List.length_append] at hf ⊢
    cases f with
    | zero => omega
    | succ f =>
      simp only [substVarsGo]
      rw [tryMatchVar_none_of_head _ (hall c (by simp))]
      simp only [Option.elim_none, List.cons.injEq, true_and]
      rw [ih l f (fun x hx => hall x (by simp [hx])) (by simp; omega)]

lemma substVarsGo_match (vars : List (String × String))
    (name suf : List Char) (f : Nat) (hne : name ≠ [])
    (hnc : ∀ c ∈ name, c ≠ closeBr)
    (hf : name.length + suf.length + 4 ≤ f) :
    substVarsGo vars f (openBr :: openBr :: (name ++ closeBr :: closeBr :: suf)) =
      replaceVar vars name ++ substVarsGo vars suf.length suf := by
  cases f with
  | zero => omega
  | succ f =>
    have htm : tryMatchVar (openBr :: openBr :: (name ++ closeBr :: closeBr :: suf)) =
        some (name, suf) := by
      simp only [tryMatchVar, if_pos (And.intro rfl rfl)]
      exact scanTemplateVar_complete suf hne hnc
    simp only [substVarsGo, htm, Option.elim_some]
    rw [substVarsGo_congrFuel vars f suf.length suf (by simp at hf ⊢; omega) le_rfl]

lemma stringMk_eq_of_data {l : List Char} {s : String} (h : l = s.data) :
    String.mk l = s := by
  cases s
  exact congrArg String.mk h

lemma length_pos_of_not_isEmpty {α : Type} {xs : List α}
    (h : ¬ xs.isEmpty = true) : 1 ≤ xs.length := by
  cases xs with
  | nil => exact absurd rfl h
  | cons _ _ => simp

lemma scanEnvRef_length {l name dflt rest : List Char}
    (h : scanEnvRef l = some (name, dflt, rest)) :
    rest.length + 2 ≤ l.length := by
  unfold scanEnvRef at h
  split at h
  next c1 rest1 hd =>
    by_cases he : (l.takeWhile (fun c => c ≠ closeBr ∧ c ≠ ':')).isEmpty
    · rw [if_pos he] at h
      exact absurd h (by simp)
    · rw [if_neg he] at h
      have e1 := length_takeWhile_add_dropWhile
        (fun c => decide (c ≠ closeBr ∧ c ≠ ':')) l
      rw [hd] at e1
      have hpos := length_pos_of_not_isEmpty he
      by_cases hcb : c1 = closeBr
      · rw [if_pos hcb, Option.some_inj] at h
        injection h with h1 h23
        injection h23 with h2 h3
        subst h3
        simp only [List.length_cons] at e1
        omega
      · rw [if_neg hcb] at h
        by_cases hcc : c1 = ':'
        · rw [if_pos hcc] at h
          split at h
          next c2 rest2 hd2 =>
            by_cases hc2 : c2 = closeBr
            · rw [if_pos hc2, Option.some_inj] at h
              injection h with h1 h23
              injection h23 with h2 h3
              subst h3
              have e2 := length_takeWhile_add_dropWhile
                (fun c => decide (c ≠ closeBr)) rest1
              rw [hd2] at e2
              simp only [List.length_cons] at e1 e2
              omega
            · rw [if_neg hc2] at h
              exact absurd h (by simp)
          next hd2 => exact absurd h (by simp)
        · rw [if_neg hcc] at h
          exact absurd h (by simp)
  next hd => exact absurd h (by simp)

lemma scanEnvRef_complete {name : List Char} (suf : List Char)
    (hne : name ≠ []) (hnc : ∀ c ∈ name, c ≠ closeBr ∧ c ≠ ':') :
    scanEnvRef (name ++ closeBr :: suf) = some (name, [], suf) := by
  have hall : ∀ c ∈ name, (fun c => decide (c ≠ closeBr ∧ c ≠ ':')) c = true := by
    intro c hc
    simp [(hnc c hc).1, (hnc c hc).2]
  have hstop : (fun c => decide (c ≠ closeBr ∧ c ≠ ':')) closeBr = false := by simp
  have h := takeWhile_append_stop name closeBr suf hall hstop
  unfold scanEnvRef
  rw [h.2, h.1]
  simp [hne]

lemma tryMatchEnv_length {l name dflt rest : List Char}
    (h : tryMatchEnv l = some (name, dflt, rest)) : rest.length + 4 ≤ l.length := by
  cases l with
  | nil => exact absurd h (by simp [tryMatchEnv])
  | cons c1 t1 =>
    cases t1 with
    | nil => exact absurd h (by simp [tryMatchEnv])
    | cons c2 rest2 =>
      simp only [tryMatchEnv] at h
      split_ifs at h with hc
      have := scanEnvRef_length h
      simp only [List.length_cons]
      omega

lemma tryMatchEnv_none_of_head {c : Char} (cs : List Char)
    (h : c ≠ Char.ofNat 36) : tryMatchEnv (c :: cs) = none := by
  cases cs with
  | nil => rfl
  | cons c2 t => simp [tryMatchEnv, h]

lemma substEnvGo_nil (env : String → Option String) :
    ∀ f, substEnvGo env f [] = [] := by
  intro f
  cases f <;> rfl

lemma substEnvGo_congrFuel (env : String → Option String) :
    ∀ f g l, l.length ≤ f → l.length ≤ g →
      substEnvGo env f l = substEnvGo env g l := by
  intro f
  induction f with
  | zero =>
    intro g l hf _
    have hl : l = [] := by
      cases l with
      | nil => rfl
      | cons _ _ => simp at hf
    rw [hl, substEnvGo_nil, substEnvGo_nil]
  | succ f ih =>
    intro g l hf hg
    cases l with
    | nil => rw [substEnvGo_nil, substEnvGo_nil]
    | cons c cs =>
      cases g with
      | zero => simp at hg
      | succ g =>
        simp only [substEnvGo]
        cases htm : tryMatchEnv (c :: cs) with
        | none =>
          simp only [htm, Option.elim_none, List.length_cons] at hf hg ⊢
          rw [ih g cs (by omega) (by omega)]
        | some pr =>
          obtain ⟨name, dflt, rest⟩ := pr
          have hlen := tryMatchEnv_length htm
          simp only [htm, Option.elim_some, List.length_cons] at hf hg hlen ⊢
          rw [ih g rest (by omega) (by omega)]

lemma substEnvGo_append_pass (env : String → Option String) :
    ∀ (pre : List Char) (l : List Char) (f : Nat),
      (∀ c ∈ pre, c ≠ Char.ofNat 36) → (pre ++ l).length ≤ f →
      substEnvGo env f (pre ++ l) = pre ++ substEnvGo env l.length l := by
  intro pre
  induction pre with
  | nil =>
    intro l f _ hf
    simp only [List.nil_append] at hf ⊢
    exact substEnvGo_congrFuel env f l.length l hf le_rfl
  | cons c t ih =>
    intro l f hall hf
    simp only [List.cons_append, List.length_cons, List.length_append] at hf ⊢
    cases f with
    | zero => omega
    | succ f =>
      simp only [substEnvGo]
      rw [tryMatchEnv_none_of_head _ (hall c (by simp))]
      simp only [Option.elim_none, List.cons.injEq, true_and]
      rw [ih l f (fun x hx => hall x (by simp [hx])) (by simp; omega)]

lemma substEnvGo_matchRef (env : String → Option String)
    (name suf : List Char) (f : Nat) (hne : name ≠ [])
    (hnc : ∀ c ∈ name, c ≠ closeBr ∧ c ≠ ':')
    (hf : name.length + suf.length + 3 ≤ f) :
    substEnvGo env f (Char.ofNat 36 :: openBr :: (name ++ closeBr :: suf)) =
      replaceEnvRef env name [] ++ substEnvGo env suf.length suf := by
  cases f with
  | zero => omega
  | succ f =>
    have htm : tryMatchEnv (Char.ofNat 36 :: openBr :: (name ++ closeBr :: suf)) =
        some (name, [], suf) := by
      simp only [tryMatchEnv, if_pos (And.intro rfl rfl)]
      exact scanEnvRef_complete suf hne hnc
    simp only [substEnvGo, htm, Option.elim_some]
    rw [substEnvGo_congrFuel env f suf.length suf (by simp at hf ⊢; omega) le_rfl]

/-- Claim C6 (counterexample): the claim says a template variable absent
from the supplied variable map raises an error at render time.  In the
source, `substitute_template`'s `replace_var` has no raise path: a
missing variable is substituted with the string `[name: not available]`
(and `build_prompt` additionally swallows any exception and falls back
to a simple prompt).  Rendering the template `Hello {{name}}` with an
empty variable map returns the placeholder text — no error. -/
theorem substitute_template_missing_raises_cex :
    substitute_template "Hello \x7b\x7bname\x7d\x7d" [] =
      "Hello [name: not available]" := by
  decide

/-- Claim C6 (amended): for every template of the form
`pre ++ "{{" ++ name ++ "}}" ++ suf` (where `pre` contains no opening
brace and `name` is a nonempty variable name without closing braces)
and every variable map in which `name` is absent, `substitute_template`
does not raise: it replaces the occurrence with the placeholder
`[name: not available]` and continues substituting the suffix. -/
theorem substitute_template_missing_placeholder
    (vars : List (String × String)) (pre name suf : String)
    (hlook : List.lookup name vars = none)
    (hne : name ≠ "")
    (hnc : ∀ c ∈ name.data, c ≠ closeBr)
    (hpre : ∀ c ∈ pre.data, c ≠ openBr) :
    substitute_template (pre ++ "\x7b\x7b" ++ name ++ "\x7d\x7d" ++ suf) vars =
      pre ++ "[" ++ name ++ ": not available]" ++ substitute_template suf vars := by
  have hdn : name.data ≠ [] := by
    intro hd
    exact hne (congrArg String.mk hd)
  have hdata : (pre ++ "\x7b\x7b" ++ name ++ "\x7d\x7d" ++ suf).data =
      pre.data ++ (openBr :: openBr :: (name.data ++ closeBr :: closeBr :: suf.data)) := by
    have h1 : ("\x7b\x7b" : String).data = [openBr, openBr] := by decide
    have h2 : ("\x7d\x7d" : String).data = [closeBr, closeBr] := by decide
    simp [String.data_append, h1, h2]
    decide
  unfold substitute_template
  rw [hdata]
  rw [substVarsGo_append_pass vars pre.data _ _ hpre le_rfl]
  rw [substVarsGo_match vars name.data suf.data _ hdn hnc
    (by simp only [List.length_cons, List.length_append]; omega)]
  have hrep : replaceVar vars name.data =
      ("[" ++ name ++ ": not available]").data := by
    unfold replaceVar
    have hmk : String.mk name.data = name := rfl
    rw [hmk, hlook]
  rw [hrep]
  apply stringMk_eq_of_data
  simp [String.data_append, substitute_template, List.append_assoc]

/-- Witness for the amended claim C6 at a concrete template, variable
map, and missing variable. -/
theorem substitute_template_missing_placeholder_witness :
    substitute_template ("Hi " ++ "\x7b\x7b" ++ "who" ++ "\x7d\x7d" ++ "!")
        [("other", "x")] =
      "Hi " ++ "[" ++ "who" ++ ": not available]" ++ substitute_template "!" [("other", "x")] ∧
    substitute_template ("Hi " ++ "\x7b\x7b" ++ "who" ++ "\x7d\x7d" ++ "!")
        [("other", "x")] = "Hi [who: not available]!" :=
  ⟨substitute_template_missing_placeholder [("other", "x")] "Hi " "who" "!"
      (by decide) (by decide) (by decide) (by decide),
    by decide⟩

/-- Claim C10: for every string containing `${X}` with no default, where
the environment variable `X` is unset, `substitute_env_vars` replaces
the occurrence with the empty string (neither leaving the literal
`${X}` in place nor raising): the prefix (without `$`) passes through
unchanged, the `${X}` occurrence vanishes, and substitution continues on
the suffix. -/
theorem substitute_env_vars_unset_empty (env : String → Option String)
    (x pre suf : String)
    (hx : env x = none)
    (hne : x ≠ "")
    (hxc : ∀ c ∈ x.data, c ≠ closeBr ∧ c ≠ ':')
    (hpre : ∀ c ∈ pre.data, c ≠ Char.ofNat 36) :
    substitute_env_vars env (pre ++ "$\x7b" ++ x ++ "\x7d" ++ suf) =
      pre ++ substitute_env_vars env suf := by
  have hdn : x.data ≠ [] := by
    intro hd
    exact hne (congrArg String.mk hd)
  have hdata : (pre ++ "$\x7b" ++ x ++ "\x7d" ++ suf).data =
      pre.data ++ (Char.ofNat 36 :: openBr :: (x.data ++ closeBr :: suf.data)) := by
    have h1 : ("$\x7b" : String).data = [Char.ofNat 36, openBr] := by decide
    have h2 : ("\x7d" : String).data = [closeBr] := by decide
    simp [String.data_append, h1, h2]
    decide
  unfold substitute_env_vars
  rw [hdata]
  rw [substEnvGo_append_pass env pre.data _ _ hpre le_rfl]
  rw [substEnvGo_matchRef env x.data suf.data _ hdn hxc
    (by simp only [List.length_cons, List.length_append]; omega)]
  have hrep : replaceEnvRef env x.data [] = [] := by
    unfold replaceEnvRef
    have hmk : String.mk x.data = x := rfl
    rw [hmk, hx]
  rw [hrep]
  apply stringMk_eq_of_data
  simp [String.data_append, substitute_env_vars]

/-- Witness for claim C10 at a concrete environment and value. -/
theorem substitute_env_vars_unset_empty_witness :
    substitute_env_vars (fun _ => none) ("a " ++ "$\x7b" ++ "X" ++ "\x7d" ++ " b") =
      "a " ++ substitute_env_vars (fun _ => none) " b" ∧
    substitute_env_vars (fun _ => none) ("a " ++ "$\x7b" ++ "X" ++ "\x7d" ++ " b") = "a  b" :=
  ⟨substitute_env_vars_unset_empty (fun _ => none) "X" "a " " b" rfl
      (by decide) (by decide) (by decide),
    by decide⟩

/-! ### Storage theorems -/

lemma deserialize_modelDump (k : KnowledgeItem) :
    deserializeKnowledge (modelDump k) = k := by
  obtain ⟨t, ab, c, src, au, cat, tg, mi, b⟩ := k
  cases b with
  | generic ct =>
    simp only [modelDump, deserializeKnowledge, contentTypeOf]
    split_ifs <;> rfl
  | paper p =>
    simp [modelDump, deserializeKnowledge, contentTypeOf]
  | search s =>
    simp [modelDump, deserializeKnowledge, contentTypeOf]

/-- Claim C1: after `store_knowledge(K)`, `get_knowledge(K.primary_id)`
returns an item equal to `K` in every field (meta_info and tags
included), with the body deserialized into the polymorphic subtype
selected by the stored `content_type`; serialization round-trips
(`deserialize (serialize K) = K`) and storing the same item again is
idempotent (it overwrites with identical file and index contents). -/
theorem store_get_knowledge_roundtrip (s : KnowStore) (k : KnowledgeItem) :
    (get_knowledge (store_knowledge s k).1 (store_knowledge s k).2).2 = some k ∧
    deserializeKnowledge (modelDump k) = k ∧
    store_knowledge (store_knowledge s k).1 k = store_knowledge s k := by
  refine ⟨?_, deserialize_modelDump k, ?_⟩
  · simp [store_knowledge, get_knowledge, deserialize_modelDump k]
  · simp only [store_knowledge, Prod.mk.injEq, KnowStore.mk.injEq, and_true]
    refine ⟨?_, ?_⟩
    · funext p
      by_cases hp : p = knowledgePath (get_primary_id k) <;> simp [hp]
    · funext i
      by_cases hi : i = get_primary_id k <;> simp [hi]

/-- Claim C9: `store_raw_file(file_id, content=bytes)` with an empty
`file_extension` writes `raw_files/{file_id}.bin` and records extension
`.bin` in the index; a non-empty extension lacking a leading dot gets a
dot prepended in both the filename and the index entry. -/
theorem store_raw_file_extension_defaults (s : RawStore) (fileId : String)
    (content : List Nat) :
    ((store_raw_file s fileId content "").2 = "raw_files/" ++ fileId ++ ".bin" ∧
     (store_raw_file s fileId content "").1.index fileId =
       some ("raw_files/" ++ fileId ++ ".bin", ".bin")) ∧
    (∀ e : String, e ≠ "" → startsWithDot e = false →
      (store_raw_file s fileId content e).2 = "raw_files/" ++ fileId ++ ("." ++ e) ∧
      (store_raw_file s fileId content e).1.index fileId =
        some ("raw_files/" ++ fileId ++ ("." ++ e), "." ++ e)) := by
  have hbin : normalizeExt "" = ".bin" := by decide
  constructor
  · constructor
    · simp [store_raw_file, rawPath, hbin, String.append_assoc]
    · simp [store_raw_file, rawPath, hbin, String.append_assoc]
  · intro e he hd
    have hne : normalizeExt e = "." ++ e := by
      simp [normalizeExt, he, hd]
    constructor
    · simp [store_raw_file, rawPath, hne, String.append_assoc]
    · simp [store_raw_file, rawPath, hne, String.append_assoc]

/-- Witness for claim C9 at a concrete store, file ID, and extension. -/
theorem store_raw_file_extension_defaults_witness :
    (store_raw_file ⟨[], fun _ => none⟩ "k1" [3, 7] "").2 =
      "raw_files/" ++ "k1" ++ ".bin" ∧
    (store_raw_file ⟨[], fun _ => none⟩ "k1" [3, 7] "txt").2 =
      "raw_files/" ++ "k1" ++ ("." ++ "txt") :=
  ⟨((store_raw_file_extension_defaults ⟨[], fun _ => none⟩ "k1" [3, 7]).1).1,
   ((store_raw_file_extension_defaults ⟨[], fun _ => none⟩ "k1" [3, 7]).2 "txt"
      (by decide) (by decide)).1⟩

lemma get_raw_file_after_store (s : RawStore) (fid : String) (c : List Nat)
    (e : String) :
    (get_raw_file (store_raw_file s fid c e).1 fid).2 =
      some (rawPath fid (normalizeExt e)) := by
  simp [get_raw_file, store_raw_file, List.lookup]

lemma handle_paper_files_skip (cfg : BaseStorageConfig)
    (http : String → Nat → Option (List Nat)) (s : RawStore)
    (k : KnowledgeItem) (p : PaperFields) (path : String)
    (hex : (get_raw_file s (get_primary_id k)).2 = some path) :
    handle_paper_files cfg http s k p = ((get_raw_file s (get_primary_id k)).1, []) := by
  unfold handle_paper_files
  rw [hex]

lemma handle_paper_files_download (cfg : BaseStorageConfig)
    (http : String → Nat → Option (List Nat)) (s : RawStore)
    (k : KnowledgeItem) (p : PaperFields) (url : String) (bs : List Nat)
    (hinit : (get_raw_file s (get_primary_id k)).2 = none)
    (hurl : p.pdf_url = some url)
    (hget : http url 30 = some bs) (hbne : bs ≠ []) :
    handle_paper_files cfg http s k p =
      ((store_raw_file (get_raw_file s (get_primary_id k)).1
          (get_primary_id k) bs ".pdf").1,
       [⟨url, 30⟩]) := by
  unfold handle_paper_files download_file_content
  rw [hinit, hurl]
  dsimp only
  rw [hget]
  simp [hbne]

lemma process_knowledge_paper (cfg : BaseStorageConfig)
    (http : String → Nat → Option (List Nat)) (s : Storage)
    (k : KnowledgeItem) (p : PaperFields)
    (hbody : k.body = KnowledgeBody.paper p) :
    process_knowledge cfg http s k =
      ({ know := (store_knowledge s.know k).1,
         raw := (handle_paper_files cfg http s.raw k p).1 },
       (store_knowledge s.know k).2,
       (handle_paper_files cfg http s.raw k p).2) := by
  unfold process_knowledge
  rw [hbody]

/-- Claim C3: calling `process_knowledge` twice on the same Paper with
`pdf_url` set (no raw file present initially, first download
successful and non-empty) issues exactly one HTTP GET in total — the
first call downloads and stores the PDF, the second finds the stored
raw file via `get_raw_file` and performs no download. -/
theorem process_knowledge_duplicate_suppression (cfg : BaseStorageConfig)
    (http : String → Nat → Option (List Nat)) (s : Storage)
    (k : KnowledgeItem) (p : PaperFields) (url : String) (bs : List Nat)
    (hbody : k.body = KnowledgeBody.paper p)
    (hurl : p.pdf_url = some url)
    (hinit : (get_raw_file s.raw (get_primary_id k)).2 = none)
    (hget : http url 30 = some bs) (hbne : bs ≠ []) :
    (process_knowledge cfg http s k).2.2 = [⟨url, 30⟩] ∧
    (process_knowledge cfg http (process_knowledge cfg http s k).1 k).2.2 = [] := by
  rw [process_knowledge_paper cfg http s k p hbody]
  rw [handle_paper_files_download cfg http s.raw k p url bs hinit hurl hget hbne]
  refine ⟨rfl, ?_⟩
  rw [process_knowledge_paper cfg http _ k p hbody]
  rw [handle_paper_files_skip cfg http _ k p
    (rawPath (get_primary_id k) (normalizeExt ".pdf"))
    (get_raw_file_after_store _ (get_primary_id k) bs ".pdf")]

/-- Witness for claim C3 at a concrete paper, store, and HTTP oracle. -/
theorem process_knowledge_duplicate_suppression_witness :
    (process_knowledge {} (fun _ _ => some [9])
        ⟨⟨fun _ => none, fun _ => none⟩, ⟨[], fun _ => none⟩⟩
        { title := "T", source := "test",
          body := KnowledgeBody.paper { arxiv_id := some "p1", pdf_url := some "u1" } }).2.2 =
      [⟨"u1", 30⟩] ∧
    (process_knowledge {} (fun _ _ => some [9])
        (process_knowledge {} (fun _ _ => some [9])
          ⟨⟨fun _ => none, fun _ => none⟩, ⟨[], fun _ => none⟩⟩
          { title := "T", source := "test",
            body := KnowledgeBody.paper { arxiv_id := some "p1", pdf_url := some "u1" } }).1
        { title := "T", source := "test",
          body := KnowledgeBody.paper { arxiv_id := some "p1", pdf_url := some "u1" } }).2.2 =
      [] :=
  process_knowledge_duplicate_suppression {} (fun _ _ => some [9])
    ⟨⟨fun _ => none, fun _ => none⟩, ⟨[], fun _ => none⟩⟩
    { title := "T", source := "test",
      body := KnowledgeBody.paper { arxiv_id := some "p1", pdf_url := some "u1" } }
    { arxiv_id := some "p1", pdf_url := some "u1" } "u1" [9]
    rfl rfl (by decide) rfl (by decide)

/-- The repository's own test fixture values: `download_timeout=1`
(tests/storage/test_local_storage.py) and the paper of
`test_process_knowledge_paper_with_pdf_url`. -/
def cfgFixture : BaseStorageConfig := { download_timeout := 1 }

def paperFixture : KnowledgeItem :=
  { title := "Paper with PDF URL", source := "test",
    body := KnowledgeBody.paper
      { arxiv_id := some "test.002", pdf_url := some "https://example.com/paper.pdf" } }

def emptyStorage : Storage := ⟨⟨fun _ => none, fun _ => none⟩, ⟨[], fun _ => none⟩⟩

/-- Claim C2 (code_bug evidence): processing a Paper issues exactly one
HTTP GET, stores successful non-empty bytes as `{id}.pdf`, and keeps the
knowledge record stored and retrievable when the download fails — but
the GET carries the hardcoded timeout 30, not the configured
`download_timeout` (1 in the repository's own test fixture):
`_download_file_content` calls `requests.get(url, timeout=30)` and never
reads `BaseStorageConfig.download_timeout`, whose docstring says it is
the timeout for downloading files. -/
theorem download_ignores_configured_timeout :
    (process_knowledge cfgFixture (fun _ _ => none) emptyStorage paperFixture).2.2 =
      [⟨"https://example.com/paper.pdf", 30⟩] ∧
    cfgFixture.download_timeout = 1 ∧
    (30 : Nat) ≠ cfgFixture.download_timeout ∧
    (get_knowledge
        (process_knowledge cfgFixture (fun _ _ => none) emptyStorage paperFixture).1.know
        "test.002").2 = some paperFixture ∧
    (process_knowledge cfgFixture (fun _ _ => some [37, 80]) emptyStorage paperFixture).2.2 =
      [⟨"https://example.com/paper.pdf", 30⟩] ∧
    (get_raw_file
        (process_knowledge cfgFixture (fun _ _ => some [37, 80]) emptyStorage paperFixture).1.raw
        "test.002").2 = some "raw_files/test.002.pdf" := by
  decide

/-! ### Summary-flow and config-dispatch theorems -/

/-- A knowledge item with empty content (title set, everything else
default). -/
def emptyContentItem : KnowledgeItem := { title := "T", content := "", source := "test" }

/-- A summary config with a small explicit template (the source default
template is used when `prompt_template` is unset). -/
def summaryCfg : SummaryFlowConfig :=
  { prompt_template := some "Summarize: \x7b\x7bcontent\x7d\x7d" }

/-- Claim C5 (counterexample): the claim says that on empty content
`SummaryFlow` returns the literal string "No content available for
summarization." without making any LLM call.  In the source,
`SummaryFlow.execute` has no empty-content check (that literal string
appears nowhere in the code base): on an item with empty content it
builds the prompt, makes one LLM call (not zero), and — when the LLM
yields nothing — returns the error-result dictionary
`_create_error_result("Failed to generate summary")`, not a bare
string. -/
theorem summary_flow_empty_content_cex :
    (summary_execute summaryCfg (fun _ => none) emptyContentItem).2 = 1 ∧
    (summary_execute summaryCfg (fun _ => none) emptyContentItem).1 =
      SummaryOutcome.errorResult "Failed to generate summary" := by
  decide

/-- Claim C5 (amended): on a knowledge item with empty content,
`SummaryFlow.execute` performs no empty-content special-casing: it
still builds the prompt and makes exactly one LLM call, and when the
call returns nothing the result is the error dictionary with message
"Failed to generate summary" (never the literal "No content available
for summarization."). -/
theorem summary_execute_empty_content (cfg : SummaryFlowConfig)
    (llm : String → Option String) (k : KnowledgeItem)
    (_hc : k.content = "")
    (hnone : llm (build_prompt cfg k []) = none) :
    (summary_execute cfg llm k).2 = 1 ∧
    (summary_execute cfg llm k).1 =
      SummaryOutcome.errorResult "Failed to generate summary" := by
  unfold summary_execute
  rw [hnone]
  exact ⟨rfl, rfl⟩

/-- Witness for the amended claim C5 at a concrete config, item, and
LLM oracle. -/
theorem summary_execute_empty_content_witness :
    (summary_execute summaryCfg (fun _ => some "S") emptyContentItem).2 = 1 ∧
    (summary_execute { output_format := "narrative" } (fun _ => none) emptyContentItem).2 = 1 ∧
    (summary_execute { output_format := "narrative" } (fun _ => none) emptyContentItem).1 =
      SummaryOutcome.errorResult "Failed to generate summary" :=
  ⟨by decide,
   (summary_execute_empty_content { output_format := "narrative" } (fun _ => none)
      emptyContentItem rfl rfl).1,
   (summary_execute_empty_content { output_format := "narrative" } (fun _ => none)
      emptyContentItem rfl rfl).2⟩

/-- Claim C7 (counterexample): the claim says a component section whose
type is not registered makes `Setting.from_yaml` fail at load time.  In
the source `_parse_config` logs `Unknown source type: unknown_source`
and skips the section (the repository's own test
`test_parse_config_unknown_types` asserts "Unknown source should be
ignored"): parsing the dict `{source: {type: "unknown_source"}}`
succeeds, producing a Setting with no source component and only a
warning. -/
theorem parse_config_unknown_type_cex :
    parse_config { source := some { typeName := some "unknown_source" } } =
      ({ source := none }, ["Unknown source type: unknown_source"]) := by
  decide

/-- Claim C7 (amended): for every configuration dictionary containing a
component section (source, parser, tagger, or storage) whose type is
not a registered component type, `_parse_config` does not fail: it logs
a warning naming the component and the offending type and constructs
the Setting with that section skipped (the field keeps its default). -/
theorem parse_config_unknown_type_skips (d : ConfigDict)
    (kind : ComponentKind) (sec : ComponentSection) (t : String)
    (hsec : sectionOf d kind = some sec)
    (htype : sec.typeName = some t)
    (hunk : t ∉ registryTypes kind) :
    fieldOf (parse_config d).1 kind = none ∧
    ("Unknown " ++ kindName kind ++ " type: " ++ t) ∈ (parse_config d).2 := by
  have hcomp : parseComponent kind (sectionOf d kind) =
      (none, ["Unknown " ++ kindName kind ++ " type: " ++ t]) := by
    rw [hsec]
    unfold parseComponent
    dsimp only
    rw [htype]
    dsimp only
    rw [if_neg hunk]
  cases kind <;>
    simp only [sectionOf] at hcomp <;>
    simp [parse_config, fieldOf, hcomp, List.mem_append]

/-- Witness for the amended claim C7 at a concrete dict with an
unregistered parser type. -/
theorem parse_config_unknown_type_skips_witness :
    fieldOf (parse_config { parser := some { typeName := some "docx" } }).1
      ComponentKind.parserKind = none ∧
    ("Unknown " ++ "parser" ++ " type: " ++ "docx") ∈
      (parse_config { parser := some { typeName := some "docx" } }).2 :=
  parse_config_unknown_type_skips { parser := some { typeName := some "docx" } }
    ComponentKind.parserKind { typeName := some "docx" } "docx" rfl rfl (by decide)

end QuantMind
